import Mathlib

/-!
Verification of the layout engine of `src/generate.js` (emoji-reading).

The JavaScript numbers are modelled as exact rationals (`ℚ`); every numeric
literal of the source (`0.9`, `1.2`, `24`, ...) is exactly representable here,
and all comparisons the program makes are order comparisons on such values.
`Math.random()` is modelled as an explicit stream of rationals; theorems
quantify over every stream, with validity (each draw in `[0, 1)`) as an
explicit hypothesis where a claim needs it.
-/

/-- Canvas width (`SVG_WIDTH = 1056` in the source). -/
def SVG_WIDTH : ℚ := 1056

/-- Canvas height (`SVG_HEIGHT = 816` in the source). -/
def SVG_HEIGHT : ℚ := 816

/-- Font size (`FONT_SIZE = 24` in the source). -/
def FONT_SIZE : ℚ := 24

/-- Padding around each word (`PADDING = FONT_SIZE / 4` in the source). -/
def PADDING : ℚ := FONT_SIZE / 4

/-- Attempt budget per token (`MAX_ATTEMPTS = 5000` in the source). -/
def MAX_ATTEMPTS : ℕ := 5000

/-- An axis-aligned rectangle `{x, y, width, height}` as the source builds. -/
structure Rect where
  x : ℚ
  y : ℚ
  width : ℚ
  height : ℚ
deriving DecidableEq

/-- The `{width, height}` record `estimateBoundingBox` returns. -/
structure BoundingBox where
  width : ℚ
  height : ℚ
deriving DecidableEq

/-- `estimateBoundingBox(text, fontSize)`: width is
`text.length * fontSize * 0.9 + PADDING * 2`, height is
`fontSize * 1.2 + PADDING * 2`.  Note the source adds the global
constant `PADDING` (derived from `FONT_SIZE`), not `fontSize / 4`. -/
def estimateBoundingBox (text : String) (fontSize : ℚ) : BoundingBox :=
  { width := (text.length : ℚ) * fontSize * (9/10) + PADDING * 2
    height := fontSize * (12/10) + PADDING * 2 }

/-- `rectanglesOverlap(rect1, rect2)`: the negation of the four-way
strict-inequality separation test, exactly as the source writes it. -/
def rectanglesOverlap (rect1 rect2 : Rect) : Bool :=
  !(decide (rect1.x + rect1.width < rect2.x) ||
    decide (rect2.x + rect2.width < rect1.x) ||
    decide (rect1.y + rect1.height < rect2.y) ||
    decide (rect2.y + rect2.height < rect1.y))

/-- The attempt loop of `findNonOverlappingPosition`, structurally recursive on
the remaining attempt budget.  `used` counts candidate positions already drawn
in this call; candidate number `used` consumes the stream values `g (2*used)`
(for `x`) and `g (2*used+1)` (for `y`), mirroring the two `Math.random()`
calls per attempt.  Returns the found rectangle (if any) together with the
number of candidates drawn. -/
def findLoop (boundingBox : BoundingBox) (placedRectangles : List Rect)
    (width height : ℚ) (g : ℕ → ℚ) : ℕ → ℕ → Option Rect × ℕ
  | 0, used => (none, used)
  | fuel + 1, used =>
    let x := g (2 * used) * (width - boundingBox.width)
    let y := g (2 * used + 1) * (height - boundingBox.height)
    let newRect : Rect :=
      { x := x, y := y, width := boundingBox.width, height := boundingBox.height }
    if placedRectangles.any (fun rect => rectanglesOverlap newRect rect) then
      findLoop boundingBox placedRectangles width height g fuel (used + 1)
    else
      (some newRect, used + 1)

/-- `findNonOverlappingPosition(boundingBox, placedRectangles, width, height)`:
up to `MAX_ATTEMPTS` rejection-sampling attempts; `none` models the source's
`null`.  The second component counts the candidates drawn (bookkeeping for the
sampling bound; it does not influence the rectangle returned). -/
def findNonOverlappingPosition (boundingBox : BoundingBox)
    (placedRectangles : List Rect) (width height : ℚ) (g : ℕ → ℚ) :
    Option Rect × ℕ :=
  findLoop boundingBox placedRectangles width height g MAX_ATTEMPTS 0

/-- One element of the `textElements` array of `generateSVG`. -/
structure TextElement where
  text : String
  x : ℚ
  y : ℚ
  rotation : ℚ
deriving DecidableEq

/-- What one `generateSVG` run produces before markup assembly:
`placedRectangles`, `textElements`, `unplacedWords`, plus the total number of
candidate positions drawn (bookkeeping for the sampling bound). -/
structure GenResult where
  rects : List Rect
  texts : List TextElement
  unplaced : List String
  samples : ℕ
deriving DecidableEq

/-- The per-word loop of `generateSVG`.  `placed` is the accumulated
`placedRectangles` array; token number `idx` of the shuffled order draws its
placement candidates from the stream `gPos idx` and its rotation from
`gRot idx` (separate streams per call site model the single ambient
`Math.random()` without loss of generality, since every theorem quantifies
over all streams). -/
def generateLoop (gPos : ℕ → ℕ → ℚ) (gRot : ℕ → ℚ) :
    List String → List Rect → ℕ → GenResult
  | [], placed, _ => ⟨placed, [], [], 0⟩
  | word :: rest, placed, idx =>
    let boundingBox := estimateBoundingBox word FONT_SIZE
    match findNonOverlappingPosition boundingBox placed SVG_WIDTH SVG_HEIGHT
        (gPos idx) with
    | (some position, used) =>
      let textX := position.x + position.width / 2
      let textY := position.y + position.height / 2 + FONT_SIZE / 3
      let rotation := (gRot idx - 1/2) * 30
      let r := generateLoop gPos gRot rest (placed ++ [position]) (idx + 1)
      ⟨r.rects, ⟨word, textX, textY, rotation⟩ :: r.texts, r.unplaced,
        used + r.samples⟩
    | (none, used) =>
      let r := generateLoop gPos gRot rest placed (idx + 1)
      ⟨r.rects, r.texts, word :: r.unplaced, used + r.samples⟩

/-- Insertion of one element, steered by the random comparator
`() => Math.random() - 0.5`: comparator call number `k` reads `g k`.
Models one insertion step of `Array.prototype.sort` under an inconsistent
comparator (whose result is implementation-defined but a permutation). -/
def insertRand (g : ℕ → ℚ) (w : String) : List String → ℕ → List String × ℕ
  | [], k => ([w], k)
  | x :: xs, k =>
    if g k - 1/2 < 0 then (w :: x :: xs, k + 1)
    else
      let r := insertRand g w xs (k + 1)
      (x :: r.1, r.2)

/-- `[...words].sort(() => Math.random() - 0.5)`: a sort of a copy of the
input under the random comparator; modelled as insertion sort driven by the
comparator stream `g`.  Theorems quantify over every stream, so every
behaviour of the implementation-defined sort is covered as far as the claims
reach (they only use that the result is a permutation). -/
def sortRand (g : ℕ → ℚ) : List String → ℕ → List String × ℕ
  | [], k => ([], k)
  | x :: xs, k =>
    let r := sortRand g xs k
    insertRand g x r.1 r.2

/-- `generateSVG(words)` up to markup assembly: shuffle a copy of `words`,
then place each word in shuffled order.  The source throws when
`unplacedWords` is non-empty; here success is `unplaced = []`. -/
def generateSVG (words : List String) (gShuf : ℕ → ℚ) (gPos : ℕ → ℕ → ℚ)
    (gRot : ℕ → ℚ) : GenResult :=
  generateLoop gPos gRot (sortRand gShuf words 0).1 [] 0

/-- With no obstacles, the very first candidate is accepted: the search
returns the rectangle built from the first two stream draws, after one
candidate.  (`MAX_ATTEMPTS = 4999 + 1`, so the loop body runs.) -/
lemma findNOP_nil (bb : BoundingBox) (W H : ℚ) (g : ℕ → ℚ) :
    findNonOverlappingPosition bb [] W H g =
      (some ⟨g 0 * (W - bb.width), g 1 * (H - bb.height), bb.width, bb.height⟩,
        1) := by
  rw [findNonOverlappingPosition, show MAX_ATTEMPTS = 4999 + 1 from rfl]
  simp [findLoop]

/-- Any rectangle the attempt loop returns has the footprint's size, overlaps
no obstacle, and its corner is some candidate drawn from the stream. -/
lemma findLoop_some (bb : BoundingBox) (placed : List Rect) (W H : ℚ)
    (g : ℕ → ℚ) :
    ∀ fuel used r u, findLoop bb placed W H g fuel used = (some r, u) →
      r.width = bb.width ∧ r.height = bb.height ∧
      (∀ rect ∈ placed, rectanglesOverlap r rect = false) ∧
      (∃ k, r.x = g (2 * k) * (W - bb.width) ∧
            r.y = g (2 * k + 1) * (H - bb.height)) := by
  intro fuel
  induction fuel with
  | zero => intro used r u h; simp [findLoop] at h
  | succ n ih =>
    intro used r u h
    simp only [findLoop] at h
    split at h
    · exact ih (used + 1) r u h
    · rename_i hany
      simp only [Prod.mk.injEq, Option.some.injEq] at h
      obtain ⟨hr, -⟩ := h
      subst hr
      refine ⟨rfl, rfl, ?_, used, rfl, rfl⟩
      intro rect hrect
      have := (List.any_eq_false).mp (Bool.not_eq_true _ ▸ hany) rect hrect
      simpa using this

/-- The attempt loop draws at most `fuel` more candidates than already
counted. -/
lemma findLoop_count (bb : BoundingBox) (placed : List Rect) (W H : ℚ)
    (g : ℕ → ℚ) :
    ∀ fuel used, (findLoop bb placed W H g fuel used).2 ≤ used + fuel := by
  intro fuel
  induction fuel with
  | zero => intro used; simp [findLoop]
  | succ n ih =>
    intro used
    simp only [findLoop]
    split
    · exact le_trans (ih (used + 1)) (by omega)
    · simp

/-- A Bool tautology used for the commutativity of the overlap test. -/
lemma bool_or_swap (p q r s : Bool) :
    (((p || q) || r) || s) = (((q || p) || s) || r) := by
  cases p <;> cases q <;> cases r <;> cases s <;> rfl

/-- The overlap test is symmetric: its four separation disjuncts swap in
pairs when the arguments swap. -/
lemma overlap_comm (a b : Rect) :
    rectanglesOverlap a b = rectanglesOverlap b a := by
  simp only [rectanglesOverlap]
  rw [bool_or_swap]

/-- `rectanglesOverlap` returns `false` exactly on the four-way strict
separation disjunction. -/
lemma overlap_eq_false_iff (a b : Rect) :
    rectanglesOverlap a b = false ↔
      (a.x + a.width < b.x ∨ b.x + b.width < a.x ∨
       a.y + a.height < b.y ∨ b.y + b.height < a.y) := by
  simp only [rectanglesOverlap, Bool.not_eq_false', Bool.or_eq_true,
    decide_eq_true_eq, or_assoc]

/-- C1: the spec's overlap-boundary example.  The claim says
`rectanglesOverlap` on the touching pair `{0,0,10,10}`, `{10,0,10,10}`
returns `false`; the source's strict `<` separation test makes exact edge
contact count as overlap, so it returns `true`, refuting the claim. -/
theorem rectanglesOverlap_touching_not_false :
    rectanglesOverlap ⟨0, 0, 10, 10⟩ ⟨10, 0, 10, 10⟩ = true := by
  simp [rectanglesOverlap]

/-- C1 (amended): edge-touching rectangles are classified as OVERLAPPING
(`rectanglesOverlap` returns `true` on `{0,0,10,10}`, `{10,0,10,10}`), and
the 1-unit-overlap pair `{0,0,10,10}`, `{9,0,10,10}` also returns `true`. -/
theorem rectanglesOverlap_boundary_amended :
    rectanglesOverlap ⟨0, 0, 10, 10⟩ ⟨10, 0, 10, 10⟩ = true ∧
    rectanglesOverlap ⟨0, 0, 10, 10⟩ ⟨9, 0, 10, 10⟩ = true := by
  constructor
  · simp [rectanglesOverlap]
  · simp [rectanglesOverlap]
    norm_num

/-- C2: `rectanglesOverlap a b` returns `false` exactly when the strict
four-way separation disjunction of §4.2 holds. -/
theorem rectanglesOverlap_iff_separated (a b : Rect) :
    rectanglesOverlap a b = false ↔
      (a.x + a.width < b.x ∨ b.x + b.width < a.x ∨
       a.y + a.height < b.y ∨ b.y + b.height < a.y) :=
  overlap_eq_false_iff a b

/-- C4: the claim's formula `padding = fontSize / 4` fails for font sizes
other than 24: the source adds the global `PADDING = FONT_SIZE / 4 = 6`.
At `text = ""`, `fontSize = 48` the claimed width is `2 * (48/4) = 24` but
the source computes `12`. -/
theorem estimateBoundingBox_padding_not_fontSize_div4 :
    ¬ ((estimateBoundingBox "" 48).width =
        (("" : String).length : ℚ) * 48 * (9/10) + 2 * (48 / 4)) := by
  norm_num [estimateBoundingBox, PADDING, FONT_SIZE]

/-- C4 (amended): for every token `t` and font size `f` the estimator
returns exactly `width = length t * f * 0.9 + 2 * PADDING` and
`height = f * 1.2 + 2 * PADDING`, where `PADDING` is the fixed global
`FONT_SIZE / 4 = 6` (not `f / 4`); it is a pure total function, and at the
program's font size 24 the claim's formula and the example
`estimate("abc", 24) = {width: 76.8, height: 40.8}` hold exactly. -/
theorem estimateBoundingBox_formula_amended (t : String) (f : ℚ) :
    estimateBoundingBox t f =
      ⟨(t.length : ℚ) * f * (9/10) + 2 * PADDING, f * (12/10) + 2 * PADDING⟩ ∧
    PADDING = 6 ∧
    estimateBoundingBox "abc" 24 = ⟨384/5, 204/5⟩ ∧
    (384/5 : ℚ) = ("abc".length : ℚ) * 24 * (9/10) + 2 * (24/4) ∧
    (204/5 : ℚ) = 24 * (12/10) + 2 * (24/4) := by
  refine ⟨?_, by norm_num [PADDING, FONT_SIZE], ?_, ?_, by norm_num⟩
  · simp [estimateBoundingBox]
    ring
  · simp [estimateBoundingBox, PADDING, FONT_SIZE]
    norm_num [show "abc".length = 3 from rfl]
  · norm_num [show "abc".length = 3 from rfl]

/-- C3: the claim says the search rejects an oversized footprint (width
larger than the canvas) and returns NONE for every obstacle list.  The
source performs no such check: with footprint 2000×40 on the 1056-wide
canvas and no obstacles it returns a placed rectangle on the first attempt
(here with the draw 0, a legal `Math.random()` value). -/
theorem findNonOverlappingPosition_oversized_returns_some :
    (findNonOverlappingPosition ⟨2000, 40⟩ [] SVG_WIDTH SVG_HEIGHT
        (fun _ => 0)).1 = some ⟨0, 0, 2000, 40⟩ := by
  rw [findNOP_nil]
  simp

/-- C3 (amended): the search performs no feasibility check.  With an
oversized footprint (`width > canvasWidth`) and an empty obstacle list it
returns a placed rectangle on the very first attempt, with `x` drawn from
the non-positive range `[canvasWidth - width, 0]`, so the rectangle sticks
out past the right canvas edge; `null` is returned only when every attempt
overlaps an obstacle. -/
theorem findNonOverlappingPosition_oversized_amended (bb : BoundingBox)
    (W H : ℚ) (g : ℕ → ℚ) (h0 : 0 ≤ g 0) (h1 : g 0 < 1) (hW : W < bb.width) :
    ∃ r, (findNonOverlappingPosition bb [] W H g).1 = some r ∧
      r.width = bb.width ∧ r.x ≤ 0 ∧ W < r.x + r.width := by
  refine ⟨⟨g 0 * (W - bb.width), g 1 * (H - bb.height), bb.width, bb.height⟩,
    ?_, rfl, ?_, ?_⟩
  · rw [findNOP_nil]
  · show g 0 * (W - bb.width) ≤ 0
    have hp : 0 ≤ g 0 * (bb.width - W) := mul_nonneg h0 (by linarith)
    nlinarith [hp]
  · show W < g 0 * (W - bb.width) + bb.width
    have hq : 0 < (1 - g 0) * (bb.width - W) := mul_pos (by linarith) (by linarith)
    nlinarith [hq]

/-- C3 witness: the amended statement at the concrete oversized footprint
2000×40 on the source's canvas, with the all-zero stream. -/
theorem findNonOverlappingPosition_oversized_amended_witness :
    ∃ r, (findNonOverlappingPosition ⟨2000, 40⟩ [] SVG_WIDTH SVG_HEIGHT
        (fun _ => 0)).1 = some r ∧
      r.width = 2000 ∧ r.x ≤ 0 ∧ SVG_WIDTH < r.x + r.width :=
  findNonOverlappingPosition_oversized_amended ⟨2000, 40⟩ SVG_WIDTH SVG_HEIGHT
    (fun _ => 0) (by norm_num) (by norm_num) (by norm_num [SVG_WIDTH])

/-- Inserting under the random comparator permutes: the result is the new
element joined with the old list. -/
lemma insertRand_perm (g : ℕ → ℚ) (w : String) :
    ∀ l k, (insertRand g w l k).1.Perm (w :: l) := by
  intro l
  induction l with
  | nil => intro k; simp [insertRand]
  | cons x xs ih =>
    intro k
    simp only [insertRand]
    split
    · exact List.Perm.refl _
    · exact List.Perm.trans (List.Perm.cons x (ih (k + 1))) (List.Perm.swap w x xs)

/-- The random-comparator sort returns a permutation of its input, whatever
the comparator stream does. -/
lemma sortRand_perm (g : ℕ → ℚ) : ∀ l k, (sortRand g l k).1.Perm l := by
  intro l
  induction l with
  | nil => intro k; simp [sortRand]
  | cons x xs ih =>
    intro k
    simp only [sortRand]
    exact List.Perm.trans (insertRand_perm g x _ _) (List.Perm.cons x (ih k))

/-- The per-word loop only ever adds rectangles the search accepted, so the
accumulated list stays pairwise non-overlapping. -/
lemma generateLoop_rects_pairwise (gPos : ℕ → ℕ → ℚ) (gRot : ℕ → ℚ) :
    ∀ words placed idx,
      List.Pairwise (fun a b => rectanglesOverlap a b = false) placed →
      List.Pairwise (fun a b => rectanglesOverlap a b = false)
        (generateLoop gPos gRot words placed idx).rects := by
  intro words
  induction words with
  | nil => intro placed idx h; simpa [generateLoop] using h
  | cons word rest ih =>
    intro placed idx h
    rcases hfind : findNonOverlappingPosition (estimateBoundingBox word FONT_SIZE)
        placed SVG_WIDTH SVG_HEIGHT (gPos idx) with ⟨o, used⟩
    rcases o with _ | pos
    · simp only [generateLoop, hfind]
      exact ih placed (idx + 1) h
    · simp only [generateLoop, hfind]
      apply ih
      rw [List.pairwise_append]
      refine ⟨h, List.pairwise_singleton _ _, ?_⟩
      intro a ha b hb
      rw [List.mem_singleton] at hb
      subst hb
      have hs := findLoop_some (estimateBoundingBox word FONT_SIZE) placed
        SVG_WIDTH SVG_HEIGHT (gPos idx) MAX_ATTEMPTS 0 b used hfind
      rw [overlap_comm]
      exact hs.2.2.1 a ha

/-- A rectangle lies fully within the canvas. -/
def withinCanvas (r : Rect) : Prop :=
  0 ≤ r.x ∧ r.x + r.width ≤ SVG_WIDTH ∧ 0 ≤ r.y ∧ r.y + r.height ≤ SVG_HEIGHT

/-- With valid draws (each in `[0,1)`) and every footprint fitting the
canvas, each rectangle the per-word loop accumulates lies within bounds. -/
lemma generateLoop_bounds (gPos : ℕ → ℕ → ℚ) (gRot : ℕ → ℚ)
    (hg : ∀ i k, 0 ≤ gPos i k ∧ gPos i k < 1) :
    ∀ words placed idx,
      (∀ w ∈ words, (estimateBoundingBox w FONT_SIZE).width ≤ SVG_WIDTH ∧
          (estimateBoundingBox w FONT_SIZE).height ≤ SVG_HEIGHT) →
      (∀ r ∈ placed, withinCanvas r) →
      ∀ r ∈ (generateLoop gPos gRot words placed idx).rects, withinCanvas r := by
  intro words
  induction words with
  | nil => intro placed idx hfit hp; simpa [generateLoop] using hp
  | cons word rest ih =>
    intro placed idx hfit hp
    rcases hfind : findNonOverlappingPosition (estimateBoundingBox word FONT_SIZE)
        placed SVG_WIDTH SVG_HEIGHT (gPos idx) with ⟨o, used⟩
    rcases o with _ | pos
    · simp only [generateLoop, hfind]
      exact ih placed (idx + 1) (fun w hw => hfit w (List.mem_cons_of_mem _ hw)) hp
    · simp only [generateLoop, hfind]
      apply ih _ (idx + 1) (fun w hw => hfit w (List.mem_cons_of_mem _ hw))
      intro r hr
      rcases List.mem_append.mp hr with hr | hr
      · exact hp r hr
      · rw [List.mem_singleton] at hr
        subst hr
        obtain ⟨hw, hh, -, k, hx, hy⟩ := findLoop_some
          (estimateBoundingBox word FONT_SIZE) placed SVG_WIDTH SVG_HEIGHT
          (gPos idx) MAX_ATTEMPTS 0 r used hfind
        have hfw := (hfit word (List.mem_cons_self _ _)).1
        have hfh := (hfit word (List.mem_cons_self _ _)).2
        have hg1 := hg idx (2 * k)
        have hg2 := hg idx (2 * k + 1)
        refine ⟨?_, ?_, ?_, ?_⟩
        · rw [hx]; exact mul_nonneg hg1.1 (by linarith)
        · rw [hx, hw]
          have := mul_le_of_le_one_left (b := SVG_WIDTH -
            (estimateBoundingBox word FONT_SIZE).width) (by linarith) hg1.2.le
          linarith
        · rw [hy]; exact mul_nonneg hg2.1 (by linarith)
        · rw [hy, hh]
          have := mul_le_of_le_one_left (b := SVG_HEIGHT -
            (estimateBoundingBox word FONT_SIZE).height) (by linarith) hg2.2.le
          linarith

/-- Every input word comes out exactly once, either as a text element (with
its text preserved) or in the unplaced list. -/
lemma generateLoop_texts_perm (gPos : ℕ → ℕ → ℚ) (gRot : ℕ → ℚ) :
    ∀ words placed idx,
      ((generateLoop gPos gRot words placed idx).texts.map TextElement.text ++
        (generateLoop gPos gRot words placed idx).unplaced).Perm words := by
  intro words
  induction words with
  | nil => intro placed idx; simp [generateLoop]
  | cons word rest ih =>
    intro placed idx
    rcases hfind : findNonOverlappingPosition (estimateBoundingBox word FONT_SIZE)
        placed SVG_WIDTH SVG_HEIGHT (gPos idx) with ⟨o, used⟩
    rcases o with _ | pos
    · simp only [generateLoop, hfind]
      exact List.Perm.trans List.perm_middle
        (List.Perm.cons word (ih placed (idx + 1)))
    · simp only [generateLoop, hfind, List.map_cons, List.cons_append]
      exact List.Perm.cons word (ih (placed ++ [pos]) (idx + 1))

/-- Each word draws at most `MAX_ATTEMPTS` candidates, so one attempt draws
at most `words.length * MAX_ATTEMPTS` candidates in total. -/
lemma generateLoop_samples_le (gPos : ℕ → ℕ → ℚ) (gRot : ℕ → ℚ) :
    ∀ words placed idx,
      (generateLoop gPos gRot words placed idx).samples ≤
        words.length * MAX_ATTEMPTS := by
  intro words
  induction words with
  | nil => intro placed idx; simp [generateLoop]
  | cons word rest ih =>
    intro placed idx
    rcases hfind : findNonOverlappingPosition (estimateBoundingBox word FONT_SIZE)
        placed SVG_WIDTH SVG_HEIGHT (gPos idx) with ⟨o, used⟩
    have hused : used ≤ MAX_ATTEMPTS := by
      have h := findLoop_count (estimateBoundingBox word FONT_SIZE) placed
        SVG_WIDTH SVG_HEIGHT (gPos idx) MAX_ATTEMPTS 0
      rw [show findLoop (estimateBoundingBox word FONT_SIZE) placed SVG_WIDTH
        SVG_HEIGHT (gPos idx) MAX_ATTEMPTS 0 = findNonOverlappingPosition
        (estimateBoundingBox word FONT_SIZE) placed SVG_WIDTH SVG_HEIGHT
        (gPos idx) from rfl, hfind] at h
      simpa using h
    rcases o with _ | pos
    · simp only [generateLoop, hfind, List.length_cons, Nat.succ_mul]
      have := ih placed (idx + 1)
      omega
    · simp only [generateLoop, hfind, List.length_cons, Nat.succ_mul]
      have := ih (placed ++ [pos]) (idx + 1)
      omega

/-- Evaluation of one attempt on a single word with the all-zero streams:
the word is placed at the canvas origin with rotation `-15`. -/
lemma generateSVG_single_zero (w : String) :
    generateSVG [w] (fun _ => 0) (fun _ _ => 0) (fun _ => 0) =
      ⟨[⟨0, 0, (estimateBoundingBox w FONT_SIZE).width,
            (estimateBoundingBox w FONT_SIZE).height⟩],
        [⟨w, (estimateBoundingBox w FONT_SIZE).width / 2,
            (estimateBoundingBox w FONT_SIZE).height / 2 + FONT_SIZE / 3, -15⟩],
        [], 1⟩ := by
  rw [generateSVG,
    show (sortRand (fun _ => 0) [w] 0).1 = [w] from by simp [sortRand, insertRand]]
  simp only [generateLoop, findNOP_nil]
  norm_num

/-- C5: in every attempt (in particular every successful one), the placed
rectangles are pairwise non-overlapping under `rectanglesOverlap`, in both
argument orders. -/
theorem generateSVG_pairwise_no_overlap (words : List String) (gShuf : ℕ → ℚ)
    (gPos : ℕ → ℕ → ℚ) (gRot : ℕ → ℚ)
    (_hsuccess : (generateSVG words gShuf gPos gRot).unplaced = []) :
    List.Pairwise
      (fun a b => rectanglesOverlap a b = false ∧ rectanglesOverlap b a = false)
      (generateSVG words gShuf gPos gRot).rects := by
  have h := generateLoop_rects_pairwise gPos gRot (sortRand gShuf words 0).1 [] 0
    List.Pairwise.nil
  refine List.Pairwise.imp ?_ h
  intro a b hab
  exact ⟨hab, by rw [overlap_comm]; exact hab⟩

/-- C5 witness: the pairwise statement at the concrete successful layout of
the single word `"a"` under the all-zero streams. -/
theorem generateSVG_pairwise_no_overlap_witness :
    List.Pairwise
      (fun a b => rectanglesOverlap a b = false ∧ rectanglesOverlap b a = false)
      (generateSVG ["a"] (fun _ => 0) (fun _ _ => 0) (fun _ => 0)).rects :=
  generateSVG_pairwise_no_overlap ["a"] (fun _ => 0) (fun _ _ => 0) (fun _ => 0)
    (by rw [generateSVG_single_zero])

/-- C6: the claim asserts canvas bounds for every input token list.  A
49-character token has estimated width `49 * 24 * 0.9 + 12 = 1070.4 > 1056`;
placed (with zero draws) at `x = 0` it sticks out past the right edge, so
the unconditional bounds claim is false. -/
theorem generateSVG_oversized_out_of_bounds :
    ∃ r ∈ (generateSVG ["aaaaaaaaaaaaaaaaaaaaaaaaaaaaaaaaaaaaaaaaaaaaaaaaa"]
        (fun _ => 0) (fun _ _ => 0) (fun _ => 0)).rects,
      SVG_WIDTH < r.x + r.width := by
  rw [generateSVG_single_zero]
  refine ⟨_, List.mem_singleton_self _, ?_⟩
  show SVG_WIDTH < 0 + (estimateBoundingBox
    "aaaaaaaaaaaaaaaaaaaaaaaaaaaaaaaaaaaaaaaaaaaaaaaaa" FONT_SIZE).width
  norm_num [estimateBoundingBox, PADDING, FONT_SIZE, SVG_WIDTH,
    show ("aaaaaaaaaaaaaaaaaaaaaaaaaaaaaaaaaaaaaaaaaaaaaaaaa" : String).length = 49
      from rfl]

/-- C6 (amended): provided every draw is in `[0,1)` and every token's
footprint fits the canvas (`width ≤ canvasWidth`, `height ≤ canvasHeight`),
every placed rectangle lies fully within canvas bounds. -/
theorem generateSVG_bounds_amended (words : List String) (gShuf : ℕ → ℚ)
    (gPos : ℕ → ℕ → ℚ) (gRot : ℕ → ℚ)
    (hg : ∀ i k, 0 ≤ gPos i k ∧ gPos i k < 1)
    (hfit : ∀ w ∈ words, (estimateBoundingBox w FONT_SIZE).width ≤ SVG_WIDTH ∧
        (estimateBoundingBox w FONT_SIZE).height ≤ SVG_HEIGHT) :
    ∀ r ∈ (generateSVG words gShuf gPos gRot).rects, withinCanvas r := by
  have hperm := sortRand_perm gShuf words 0
  exact generateLoop_bounds gPos gRot hg (sortRand gShuf words 0).1 [] 0
    (fun w hw => hfit w (hperm.mem_iff.mp hw)) (by simp)

/-- C6 witness: the bounds statement at the concrete layout of `"a"` under
the all-zero streams, whose one placed rectangle is `⟨0, 0, 33.6, 40.8⟩`. -/
theorem generateSVG_bounds_amended_witness :
    withinCanvas ⟨0, 0, 168/5, 204/5⟩ := by
  have h := generateSVG_bounds_amended ["a"] (fun _ => 0) (fun _ _ => 0)
    (fun _ => 0) (fun i k => ⟨le_refl 0, by norm_num⟩)
    (by
      intro w hw
      rw [List.mem_singleton] at hw
      subst hw
      constructor <;>
        norm_num [estimateBoundingBox, PADDING, FONT_SIZE, SVG_WIDTH, SVG_HEIGHT,
          show ("a" : String).length = 1 from rfl])
  apply h
  rw [generateSVG_single_zero]
  norm_num [estimateBoundingBox, PADDING, FONT_SIZE,
    show ("a" : String).length = 1 from rfl]

/-- C7: every attempt accounts for every input token exactly once — the
multiset of placed texts joined with the unplaced list is a permutation of
the input (a per-token failure only moves that token to the unplaced list,
the loop continues) — and a successful attempt (empty unplaced list) has
exactly one text element per input token, text preserved. -/
theorem generateSVG_completeness (words : List String) (gShuf : ℕ → ℚ)
    (gPos : ℕ → ℕ → ℚ) (gRot : ℕ → ℚ) :
    ((generateSVG words gShuf gPos gRot).texts.map TextElement.text ++
        (generateSVG words gShuf gPos gRot).unplaced).Perm words ∧
    ((generateSVG words gShuf gPos gRot).unplaced = [] →
      ((generateSVG words gShuf gPos gRot).texts.map TextElement.text).Perm words ∧
      (generateSVG words gShuf gPos gRot).texts.length = words.length) := by
  have h1 : ((generateSVG words gShuf gPos gRot).texts.map TextElement.text ++
      (generateSVG words gShuf gPos gRot).unplaced).Perm words :=
    (generateLoop_texts_perm gPos gRot (sortRand gShuf words 0).1 [] 0).trans
      (sortRand_perm gShuf words 0)
  refine ⟨h1, fun hemp => ?_⟩
  rw [hemp, List.append_nil] at h1
  refine ⟨h1, ?_⟩
  have := h1.length_eq
  simpa using this

/-- C9: the shuffled sequence is a permutation of the input tokens for every
behaviour of the random comparator, and one attempt runs on that sorted
copy — the caller's `words` value itself is untouched (the embedding is
pure, mirroring the source's spread-copy `[...words]`). -/
theorem shuffle_perm_frame (g gShuf : ℕ → ℚ) (gPos : ℕ → ℕ → ℚ)
    (gRot : ℕ → ℚ) (words : List String) (k : ℕ) :
    (sortRand g words k).1.Perm words ∧
    generateSVG words gShuf gPos gRot =
      generateLoop gPos gRot (sortRand gShuf words 0).1 [] 0 :=
  ⟨sortRand_perm g words k, rfl⟩

/-- C10: on the empty token list every attempt succeeds immediately, with no
placements, no text elements, an empty unplaced list (so the source's
placement-failure throw is not reached) and zero candidates drawn, for every
random stream. -/
theorem generateSVG_empty_succeeds (gShuf : ℕ → ℚ) (gPos : ℕ → ℕ → ℚ)
    (gRot : ℕ → ℚ) :
    generateSVG [] gShuf gPos gRot = ⟨[], [], [], 0⟩ := rfl

/-- The retry cap of `main` (`maxRetries = 10` in the source). -/
def maxRetries : ℕ := 10

/-- Outcome of `main`'s retry loop: a successful attempt's result, or the
unplaced list of the final failing attempt (the source's `process.exit(1)`
path).  Both carry the number of `generateSVG` invocations made and the
total number of placement candidates drawn across them (bookkeeping). -/
inductive MainResult where
  | success : GenResult → ℕ → ℕ → MainResult
  | failure : List String → ℕ → ℕ → MainResult
deriving DecidableEq

/-- Number of `generateSVG` invocations an outcome records. -/
def MainResult.invocations : MainResult → ℕ
  | .success _ n _ => n
  | .failure _ n _ => n

/-- Total placement candidates drawn across the invocations made. -/
def MainResult.samplesUsed : MainResult → ℕ
  | .success _ _ s => s
  | .failure _ _ s => s

/-- `main`'s `while (attempts < maxRetries)` loop.  `f i` is the result of
invocation number `i` of `generateSVG` (each with fresh randomness);
`attempts` is the source's counter of failed attempts so far, `samples` the
candidates drawn so far.  An attempt with an empty unplaced list is the
success (`break`); otherwise the counter increments and, at
`attempts >= maxRetries`, the loop exits with that attempt's unplaced list.
`fuel` is `maxRetries - attempts`, making the loop structurally bounded;
the `fuel = 0` branch is unreachable from the initial call. -/
def mainGo (f : ℕ → GenResult) (mR : ℕ) : ℕ → ℕ → ℕ → MainResult
  | 0, attempts, samples => .failure [] attempts samples
  | fuel + 1, attempts, samples =>
    let r := f attempts
    if r.unplaced = [] then
      .success r (attempts + 1) (samples + r.samples)
    else if mR ≤ attempts + 1 then
      .failure r.unplaced (attempts + 1) (samples + r.samples)
    else
      mainGo f mR fuel (attempts + 1) (samples + r.samples)

/-- `main`'s retry orchestration over `generateSVG`: invocation `i` runs with
its own fresh streams `gShuf i`, `gPos i`, `gRot i`. -/
def mainModel (words : List String) (gShuf : ℕ → ℕ → ℚ)
    (gPos : ℕ → ℕ → ℕ → ℚ) (gRot : ℕ → ℕ → ℚ) : MainResult :=
  mainGo (fun i => generateSVG words (gShuf i) (gPos i) (gRot i))
    maxRetries maxRetries 0 0

/-- The loop makes at most `attempts + fuel` invocations in total. -/
lemma mainGo_invocations_le (f : ℕ → GenResult) (mR : ℕ) :
    ∀ fuel attempts samples,
      (mainGo f mR fuel attempts samples).invocations ≤ attempts + fuel := by
  intro fuel
  induction fuel with
  | zero => intro attempts samples; simp [mainGo, MainResult.invocations]
  | succ n ih =>
    intro attempts samples
    simp only [mainGo]
    split
    · simp only [MainResult.invocations]; omega
    · split
      · simp only [MainResult.invocations]; omega
      · exact le_trans (ih (attempts + 1) (samples + (f attempts).samples))
          (by omega)

/-- If every invocation draws at most `B` candidates, the loop's total is at
most `samples + fuel * B`. -/
lemma mainGo_samples_le (f : ℕ → GenResult) (mR B : ℕ)
    (hB : ∀ i, (f i).samples ≤ B) :
    ∀ fuel attempts samples,
      (mainGo f mR fuel attempts samples).samplesUsed ≤ samples + fuel * B := by
  intro fuel
  induction fuel with
  | zero => intro attempts samples; simp [mainGo, MainResult.samplesUsed]
  | succ n ih =>
    intro attempts samples
    simp only [mainGo]
    have hb := hB attempts
    split
    · simp only [MainResult.samplesUsed, Nat.succ_mul]; omega
    · split
      · simp only [MainResult.samplesUsed, Nat.succ_mul]; omega
      · have := ih (attempts + 1) (samples + (f attempts).samples)
        simp only [Nat.succ_mul]
        omega

/-- If invocation `i` is the first complete one and the loop reaches it, the
loop returns exactly that invocation's result after `i + 1` invocations. -/
lemma mainGo_first_success (f : ℕ → GenResult) (mR : ℕ) :
    ∀ fuel attempts samples, attempts + fuel = mR →
      ∀ i, attempts ≤ i → i < mR → (f i).unplaced = [] →
        (∀ j, j < i → (f j).unplaced ≠ []) →
        ∃ s, mainGo f mR fuel attempts samples = .success (f i) (i + 1) s := by
  intro fuel
  induction fuel with
  | zero =>
    intro attempts samples hinv i hle hlt hempty hbefore
    exact absurd hlt (by omega)
  | succ n ih =>
    intro attempts samples hinv i hle hlt hempty hbefore
    simp only [mainGo]
    rcases Nat.eq_or_lt_of_le hle with heq | hlt2
    · subst heq
      rw [if_pos hempty]
      exact ⟨samples + (f attempts).samples, rfl⟩
    · have hne : (f attempts).unplaced ≠ [] := hbefore attempts hlt2
      rw [if_neg hne, if_neg (by omega)]
      exact ih (attempts + 1) (samples + (f attempts).samples) (by omega) i
        (by omega) hlt hempty hbefore

/-- If every invocation up to the cap is incomplete, the loop fails after
exactly `mR` invocations, surfacing the final attempt's unplaced list. -/
lemma mainGo_all_fail (f : ℕ → GenResult) (mR : ℕ) :
    ∀ fuel attempts samples, attempts + fuel = mR → 0 < fuel →
      (∀ i, i < mR → (f i).unplaced ≠ []) →
      ∃ s, mainGo f mR fuel attempts samples =
        .failure (f (mR - 1)).unplaced mR s := by
  intro fuel
  induction fuel with
  | zero =>
    intro attempts samples hinv hpos hall
    exact absurd hpos (by omega)
  | succ n ih =>
    intro attempts samples hinv hpos hall
    simp only [mainGo]
    have hne : (f attempts).unplaced ≠ [] := hall attempts (by omega)
    rw [if_neg hne]
    rcases Nat.eq_zero_or_pos n with hn | hn
    · subst hn
      rw [if_pos (by omega)]
      have hatt : attempts = mR - 1 := by omega
      rw [hatt]
      exact ⟨samples + (f (mR - 1)).samples, by rw [show mR - 1 + 1 = mR by omega]⟩
    · rw [if_neg (by omega)]
      exact ih (attempts + 1) (samples + (f attempts).samples) (by omega) hn hall

/-- C8: the retry orchestration of `main`, for every token list and every
family of per-invocation random streams.  Writing `f i` for invocation `i`
of `generateSVG` (fresh randomness per invocation): the loop always makes at
most `maxRetries = 10` invocations; the total number of placement candidates
drawn is at most `maxRetries * words.length * MAX_ATTEMPTS`; if some
invocation `i < maxRetries` is the first with an empty unplaced list, the
result is exactly that attempt's output after `i + 1` invocations; and if
all `maxRetries` invocations leave words unplaced, the operation fails,
surfacing the final (10th) attempt's unplaced list after exactly
`maxRetries` invocations. -/
theorem mainModel_retry_spec (words : List String) (gShuf : ℕ → ℕ → ℚ)
    (gPos : ℕ → ℕ → ℕ → ℚ) (gRot : ℕ → ℕ → ℚ) :
    (mainModel words gShuf gPos gRot).invocations ≤ maxRetries ∧
    (mainModel words gShuf gPos gRot).samplesUsed ≤
      maxRetries * (words.length * MAX_ATTEMPTS) ∧
    (∀ i, i < maxRetries →
      (generateSVG words (gShuf i) (gPos i) (gRot i)).unplaced = [] →
      (∀ j, j < i → (generateSVG words (gShuf j) (gPos j) (gRot j)).unplaced ≠ []) →
      ∃ s, mainModel words gShuf gPos gRot =
        .success (generateSVG words (gShuf i) (gPos i) (gRot i)) (i + 1) s) ∧
    ((∀ i, i < maxRetries →
        (generateSVG words (gShuf i) (gPos i) (gRot i)).unplaced ≠ []) →
      ∃ s, mainModel words gShuf gPos gRot =
        .failure (generateSVG words (gShuf (maxRetries - 1))
          (gPos (maxRetries - 1)) (gRot (maxRetries - 1))).unplaced
          maxRetries s) := by
  refine ⟨?_, ?_, ?_, ?_⟩
  · simpa using mainGo_invocations_le
      (fun i => generateSVG words (gShuf i) (gPos i) (gRot i)) maxRetries
      maxRetries 0 0
  · have hB : ∀ i, (generateSVG words (gShuf i) (gPos i) (gRot i)).samples ≤
        words.length * MAX_ATTEMPTS := by
      intro i
      have h := generateLoop_samples_le (gPos i) (gRot i)
        (sortRand (gShuf i) words 0).1 [] 0
      have hlen : (sortRand (gShuf i) words 0).1.length = words.length :=
        (sortRand_perm (gShuf i) words 0).length_eq
      rw [hlen] at h
      exact h
    have := mainGo_samples_le
      (fun i => generateSVG words (gShuf i) (gPos i) (gRot i)) maxRetries
      (words.length * MAX_ATTEMPTS) hB maxRetries 0 0
    simpa using this
  · intro i hi hempty hbefore
    exact mainGo_first_success
      (fun i => generateSVG words (gShuf i) (gPos i) (gRot i)) maxRetries
      maxRetries 0 0 (by omega) i (Nat.zero_le i) hi hempty hbefore
  · intro hall
    exact mainGo_all_fail
      (fun i => generateSVG words (gShuf i) (gPos i) (gRot i)) maxRetries
      maxRetries 0 0 (by omega) (by norm_num [maxRetries]) hall
